import Mathlib

/-!
Shallow embedding of the simulation core of `src/main.c` (the second,
newer program in that file: tile grid with activatable tiles, guard AI,
circle-vs-grid collision, ray-cast visibility, A*-style pathfinding).

Conventions used throughout:
* C `int` is modelled as `Int`; C `double` as `ℝ` (the collision maths);
  truncating C integer division is `Int.tdiv`.
* `assert` guards in the C source (`tile_at`, `sight_set`, `clamp`) are
  modelled as total guards returning a neutral value, matching the spec's
  "fatal in debug, must be guarded in production" contract.
* The per-tile function pointers `passable` / `see_through` are modelled by
  the closed enumeration `TileCap` (the loader only ever installs
  `tile_always`, `tile_never`, `tile_if_active`).
-/

/-- TILE_SIZE of the second program (3200 sub-tile units per tile). -/
def TILE_SIZE : Int := 3200

/-- Tile coordinate to pixel coordinate (center of tile); source `pc`. -/
def pc (tile_coord : Int) : Int := tile_coord * TILE_SIZE + TILE_SIZE / 2

/-- Tile coordinate to pixel coordinate of the tile's top-left corner; source `pc_corner`. -/
def pc_corner (tile_coord : Int) : Int := tile_coord * TILE_SIZE

/-- Pixel coordinate to tile coordinate; source `tc`.  C `/` truncates toward zero,
which is `Int.tdiv`. -/
def tc (pixel_coord : Int) : Int := Int.tdiv pixel_coord TILE_SIZE

/-- Source `clamp` (its `assert(lower <= upper)` is a debug contract; the
arithmetic below is the exact C control flow). -/
def clamp (number lower upper : Int) : Int :=
  if number < lower then lower
  else if number > upper then upper
  else number

/-- The three capability behaviours a tile's `passable`/`see_through` function
pointers can hold: `tile_always`, `tile_never`, `tile_if_active`. -/
inductive TileCap
  | always
  | never
  | ifActive
deriving DecidableEq

/-- Evaluate a capability function pointer against the tile's `active` flag. -/
def capApply : TileCap → Bool → Bool
  | .always, _ => true
  | .never, _ => false
  | .ifActive, a => a

/-- Source `struct Tile_`. -/
structure Tile where
  code : Int
  active : Bool
  activation_time : Int
  flips_in : Int
  passableCap : TileCap
  seeThroughCap : TileCap
deriving DecidableEq

/-- The loader's pre-switch defaults (`load_level`): code 0, inactive, never
activatable, not flipping, `tile_never` for both capabilities.  Also used as
the guard value for out-of-range `tile_at` queries. -/
def defaultTile : Tile := ⟨0, false, -1, -1, .never, .never⟩

/-- Tile produced by `load_level` for `' '` (open floor). -/
def openTile : Tile := ⟨0, false, -1, -1, .always, .always⟩

/-- Tile produced by `load_level` for `'#'` (wall). -/
def wallTile : Tile := ⟨1, false, -1, -1, .never, .never⟩

/-- Tile produced by `load_level` for `'+'` (activatable door,
`activation_time = 10`, passable/see-through only while active). -/
def doorTile : Tile := ⟨2, false, 10, -1, .ifActive, .ifActive⟩

/-- Source `Level`: row-major `width × height` tile array. -/
structure Level where
  width : Int
  height : Int
  tiles : List Tile
deriving DecidableEq

/-- Source `tile_at`.  The C version asserts `0 <= x < width`, `0 <= y < height`;
the model guards out-of-range queries with `defaultTile` (non-passable,
non-see-through), per the spec's production-guard contract. -/
def tile_at (level : Level) (x y : Int) : Tile :=
  if 0 ≤ x ∧ x < level.width ∧ 0 ≤ y ∧ y < level.height then
    level.tiles.getD (y * level.width + x).toNat defaultTile
  else defaultTile

/-- Source `passable`: dispatch the tile's `passable` function pointer. -/
def passable (level : Level) (x y : Int) : Bool :=
  capApply (tile_at level x y).passableCap (tile_at level x y).active

/-- Source `see_through`: dispatch the tile's `see_through` function pointer. -/
def see_through (level : Level) (x y : Int) : Bool :=
  capApply (tile_at level x y).seeThroughCap (tile_at level x y).active

/-- Source `can_be_activated`: activatable and not currently mid-flip. -/
def can_be_activated (level : Level) (x y : Int) : Bool :=
  (tile_at level x y).activation_time ≥ 0 ∧ (tile_at level x y).flips_in < 0

/-- The activation branch of `game`: `tile->flips_in = tile->activation_time`. -/
def triggerActivation (t : Tile) : Tile := { t with flips_in := t.activation_time }

/-- The per-tile body of the `check_tiles` loop: a positive flip countdown is
decremented; a zero countdown (checked only in the `else` branch, i.e. on the
following call) resets to -1 and toggles `active`; otherwise nothing. -/
def checkTile (t : Tile) : Tile :=
  if t.flips_in > 0 then { t with flips_in := t.flips_in - 1 }
  else if t.flips_in = 0 then { t with flips_in := -1, active := !t.active }
  else t

/-- Source `check_tiles`: apply the timer step to every tile of the level. -/
def check_tiles (level : Level) : Level :=
  { level with tiles := level.tiles.map checkTile }

/-- Source `MarkReason` (second program). -/
inductive MarkReason
  | MARK_TILE_PLAYER_ON
  | MARK_TILE_PLAYER_FACING
  | MARK_DOT
  | MARK_CAN_SEE
  | MARK_ACTOR_SIGHT
  | MARK_ACTOR_PATH
  | MARK_ACTOR_SPOTTED
  | MARK_ACTOR_CHASING
  | MARK_ACTOR_LOST
deriving DecidableEq

/-- Source `Mark`. -/
structure Mark where
  reason : MarkReason
  x : Int
  y : Int
deriving DecidableEq

/-- Source `MarkList`: the bounded mark buffer.  `marks` models the prefix of
the C array that has been written; `len`/`max_len` are the C fields. -/
structure MarkList where
  marks : List Mark
  len : Int
  max_len : Int
deriving DecidableEq

/-- Source `mark`: at capacity (`len == max_len`) only log and return;
otherwise write one mark at position `len` and increment `len`. -/
def mark (list : MarkList) (reason : MarkReason) (x y : Int) : MarkList :=
  if list.len = list.max_len then list
  else { list with marks := list.marks ++ [⟨reason, x, y⟩], len := list.len + 1 }

/-- Source `sign`: `(number > 0.0) - (number < 0.0)` as an integer. -/
noncomputable def csign (number : ℝ) : Int :=
  (if number > 0 then 1 else 0) - (if number < 0 then 1 else 0)

/-- C `round` (round half away from zero), as used on the collision pushes. -/
noncomputable def cround (x : ℝ) : Int :=
  if x < 0 then -⌊-x + 1/2⌋ else ⌊x + 1/2⌋

/-- Source `find_voronoi`.  The C version stores the (exactly integral) tile
boundaries in doubles and compares the integer actor center against them; all
comparisons are exact, so the integer model is faithful. -/
def find_voronoi (tx ty ax ay : Int) : Int :=
  let left := pc_corner tx
  let right := left + TILE_SIZE
  let top := pc_corner ty
  let bottom := top + TILE_SIZE
  if ay < top ∧ ax < left then 1
  else if ay < top ∧ ax > right then 3
  else if ay > bottom ∧ ax < left then 7
  else if ay > bottom ∧ ax > right then 9
  else
    let dx := ax - pc tx
    let dy := ay - pc ty
    if |dx| > |dy| then
      (if dx ≤ 0 then 4 else 6)
    else
      (if dy ≤ 0 then 2 else 8)

/-- Source `Actor` (second program): pose, radius, home pose, target, target
angle and give-up deadline, all C ints. -/
structure Actor where
  x : Int
  y : Int
  angle : Int
  radius : Int
  base_x : Int
  base_y : Int
  base_angle : Int
  tx : Int
  ty : Int
  t_angle : Int
  give_up_at : Int
deriving DecidableEq

/-- Source `init_actor`. -/
def init_actor (x y angle radius : Int) : Actor :=
  ⟨x, y, angle, radius, x, y, angle, -1, -1, -1, -1⟩

/-- Source `neighbors`, instrumented: the first component is the produced
neighbour list (`add_point` prepends, so insertion order is reversed), the
second component records every coordinate passed to `passable` (hence to
`tile_at`), in call order.  The source's first assignment to `p[4..7]` is dead
(they are recomputed from the passability-filtered `p[0..3]` before use) and is
omitted.  `passable` is only invoked — and hence a query only recorded — when
the corresponding guard bit is set, exactly as the short-circuit `&&` does. -/
def neighbors (level : Level) (x y : Int) : List (Int × Int) × List (Int × Int) :=
  let b0 := decide (y > 0)
  let b1 := decide (x > 0)
  let b2 := decide (x < level.width)
  let b3 := decide (y < level.height)
  let r0 := if b0 then (passable level x (y-1), [(x, y-1)]) else (false, [])
  let r1 := if b1 then (passable level (x-1) y, [(x-1, y)]) else (false, [])
  let r2 := if b2 then (passable level (x+1) y, [(x+1, y)]) else (false, [])
  let r3 := if b3 then (passable level x (y+1), [(x, y+1)]) else (false, [])
  let r4 := if r0.1 && r1.1 then (passable level (x-1) (y-1), [(x-1, y-1)]) else (false, [])
  let r5 := if r0.1 && r2.1 then (passable level (x+1) (y-1), [(x+1, y-1)]) else (false, [])
  let r6 := if r1.1 && r3.1 then (passable level (x-1) (y+1), [(x-1, y+1)]) else (false, [])
  let r7 := if r2.1 && r3.1 then (passable level (x+1) (y+1), [(x+1, y+1)]) else (false, [])
  let results : List (Bool × (Int × Int)) :=
    [(r0.1, (x, y-1)), (r1.1, (x-1, y)), (r2.1, (x+1, y)), (r3.1, (x, y+1)),
     (r4.1, (x-1, y-1)), (r5.1, (x+1, y-1)), (r6.1, (x-1, y+1)), (r7.1, (x+1, y+1))]
  let n := results.foldl (fun acc pr => if pr.1 then pr.2 :: acc else acc) []
  (n, r0.2 ++ r1.2 ++ r2.2 ++ r3.2 ++ r4.2 ++ r5.2 ++ r6.2 ++ r7.2)

/-- The arrival branch of `move_actors` (the body of `if (found) { ... }`):
arm the give-up deadline only when BOTH target coordinates differ from the
home coordinates, then clear the target. -/
def arrivalUpdate (frame : Int) (actor : Actor) : Actor :=
  let actor1 :=
    if actor.tx ≠ actor.base_x ∧ actor.ty ≠ actor.base_y then
      { actor with give_up_at := frame + 60 }
    else actor
  { actor1 with tx := -1, ty := -1 }

/-- Source `is_chasing`: has a target and the target differs from the base in
at least one coordinate. -/
def is_chasing (actor : Actor) : Bool :=
  (actor.tx ≠ -1 && actor.ty ≠ -1) && (actor.tx ≠ actor.base_x || actor.ty ≠ actor.base_y)

/-- A 2×2 all-open level, for exercising `neighbors` at the far corner. -/
def lvl2x2 : Level := ⟨2, 2, [openTile, openTile, openTile, openTile]⟩

/-- A 1×1 level holding a just-triggered door: the state of the door tile at
the end of the tick in which the player activated it. -/
def doorLvl : Level := ⟨1, 1, [triggerActivation doorTile]⟩

/-- Guard actor for C5: home pose (4800, 8000), currently standing at its
arrived target (4800, 4800).  The target shares the home x-coordinate but not
the home y-coordinate, so it is not the home pose. -/
def c5Actor : Actor := { init_actor 4800 8000 0 1500 with x := 4800, y := 4800, tx := 4800, ty := 4800 }

/-- A mark list at capacity (witness input for C9). -/
def fullMarks : MarkList := ⟨[⟨.MARK_DOT, 0, 0⟩], 1, 1⟩

/-- A mark list with spare capacity (witness input for C9). -/
def emptyMarks : MarkList := ⟨[], 0, 3⟩

/-- Source `Sight`: an offset-addressed boolean window over the grid, row-major
in `tiles` exactly like the C array. -/
structure Sight where
  ox : Int
  oy : Int
  width : Int
  height : Int
  tiles : List Bool
deriving DecidableEq

/-- Read the sight table at a row-major index.  A negative index (only
reachable through the smoothing quirk of `sight_get` when `sx = 0`, `sy = 0`,
an out-of-bounds read in C) is guarded to `false`; a non-negative index reads
the row-major array, reproducing the C wrap-around between rows. -/
def sightIdx (sight : Sight) (i : Int) : Bool :=
  if i < 0 then false else sight.tiles.getD i.toNat false

/-- Source `sight_set`.  The C version asserts the coordinate is inside the
window; the model guards it (out-of-window sets are dropped), per the spec's
production-guard contract. -/
def sight_set (sight : Sight) (x y : Int) : Sight :=
  let sx := x - sight.ox
  let sy := y - sight.oy
  if 0 ≤ sx ∧ 0 ≤ sy ∧ sx < sight.width ∧ sy < sight.height then
    { sight with tiles := sight.tiles.set (sy * sight.width + sx).toNat true }
  else sight

/-- Source `sight_get`, verbatim: out-of-window queries are `false`; otherwise
the tile's own bit, or the smoothing conjunction.  Note the fourth conjunct of
the C source compares `sy` with `width - 1` (not `height - 1`) and re-reads
the cell at row-major index `sy * width + sx - 1` (the LEFT neighbour again,
not the one below). -/
def sight_get (sight : Sight) (x y : Int) : Bool :=
  let sx := x - sight.ox
  let sy := y - sight.oy
  if sx < 0 ∨ sy < 0 ∨ sx ≥ sight.width ∨ sy ≥ sight.height then false
  else
    sightIdx sight (sy * sight.width + sx) ||
      ((sx == 0 || sightIdx sight (sy * sight.width + sx - 1)) &&
       (sx == sight.width - 1 || sightIdx sight (sy * sight.width + sx + 1)) &&
       (sy == 0 || sightIdx sight ((sy - 1) * sight.width + sx)) &&
       (sy == sight.width - 1 || sightIdx sight (sy * sight.width + sx - 1)))

/-- The loop of source `bresenham` (second program, lines 888-917): the
endpoint test comes FIRST and returns success; only then is the callback
invoked on the current point, aborting on `false`; otherwise the standard
error-driven step toward the endpoint.  `dx`, `dy`, `sx`, `sy` are fixed at
entry.  The loop is driven by explicit fuel: each iteration that neither
returns nor aborts advances `x0` or `y0` one step toward the endpoint, so the
`|x1-x0| + |y1-y0| + 1` fuel supplied by the `bresenham` wrapper is never
exhausted. -/
def bresenhamAux {σ : Type} (cb : Int → Int → σ → σ × Bool) (x1 y1 dx dy sx sy : Int) :
    ℕ → Int → Int → Int → σ → σ × Bool
  | 0, _, _, _, s => (s, false)
  | n + 1, x0, y0, err, s =>
    if x0 = x1 ∧ y0 = y1 then (s, true)
    else
      let r := cb x0 y0 s
      if r.2 then
        let e2 := 2 * err
        let err1 := if e2 > -dy then err - dy else err
        let x0' := if e2 > -dy then x0 + sx else x0
        let err2 := if e2 < dx then err1 + dx else err1
        let y0' := if e2 < dx then y0 + sy else y0
        bresenhamAux cb x1 y1 dx dy sx sy n x0' y0' err2 r.1
      else (r.1, false)

/-- Source `bresenham` (second program): walk the discrete line from (x0,y0)
to (x1,y1), returning the final callback state and whether the endpoint was
reached. -/
def bresenham {σ : Type} (cb : Int → Int → σ → σ × Bool) (x0 y0 x1 y1 : Int) (s : σ) : σ × Bool :=
  let dx := |x1 - x0|
  let dy := |y1 - y0|
  let sx : Int := if x0 < x1 then 1 else -1
  let sy : Int := if y0 < y1 then 1 else -1
  bresenhamAux cb x1 y1 dx dy sx sy (dx + dy + 1).toNat x0 y0 (dx - dy) s

/-- Source `line_of_sight_callback`: continue the ray while the tile is
see-through (the unused mark-list out-parameter is dropped). -/
def losCb (level : Level) (x y : Int) (_ : Unit) : Unit × Bool :=
  ((), see_through level x y)

/-- Source `line_of_sight`: true iff the Bresenham walk from (x1,y1) reaches
(x2,y2) before crossing a non-see-through tile. -/
def line_of_sight (level : Level) (x1 y1 x2 y2 : Int) : Bool :=
  (bresenham (losCb level) x1 y1 x2 y2 ()).2

/-- Source `sight_callback`: mark the traversed tile, continue while it is
see-through. -/
def sightCb (level : Level) (x y : Int) (s : Sight) : Sight × Bool :=
  (sight_set s x y, see_through level x y)

/-- The body of one iteration of the circle loop in source `compute_sight`:
the 8 symmetric rays cast from the observer at octant offsets (x, y). -/
def ray8 (level : Level) (atx aty x y : Int) (s : Sight) : Sight :=
  let s1 := (bresenham (sightCb level) atx aty (atx + x) (aty + y) s).1
  let s2 := (bresenham (sightCb level) atx aty (atx + y) (aty + x) s1).1
  let s3 := (bresenham (sightCb level) atx aty (atx - x) (aty + y) s2).1
  let s4 := (bresenham (sightCb level) atx aty (atx - y) (aty + x) s3).1
  let s5 := (bresenham (sightCb level) atx aty (atx - x) (aty - y) s4).1
  let s6 := (bresenham (sightCb level) atx aty (atx - y) (aty - x) s5).1
  let s7 := (bresenham (sightCb level) atx aty (atx + x) (aty - y) s6).1
  (bresenham (sightCb level) atx aty (atx + y) (aty - x) s7).1

/-- The midpoint-circle loop of source `compute_sight`: while `x >= y`, cast
the 8 symmetric rays from the observer, then advance the circle error terms
exactly as the C code does (`++y; err += dy; dy += 2;` and conditionally
`--x; err += dx; dx += 2;`). -/
def circleLoop (level : Level) (atx aty : Int) (s : Sight) (x y dx dy err : Int) : Sight :=
  if x ≥ y then
    if 2 * (err + dy) + dx > 0 then
      circleLoop level atx aty (ray8 level atx aty x y s) (x - 1) (y + 1) (dx + 2) (dy + 2) (err + dy + dx)
    else
      circleLoop level atx aty (ray8 level atx aty x y s) x (y + 1) dx (dy + 2) (err + dy)
  else s
termination_by (x + 1 - y).toNat
decreasing_by
  all_goals simp_wf
  all_goals omega

/-- Source `compute_sight`: clip the window to the map, allocate an all-false
table, then run the midpoint-circle ray fan (`x = radius`, `y = 0`,
`dx = 1 - 2*radius`, `dy = 0`, `err = 0`). -/
def compute_sight (level : Level) (actor : Actor) (radius : Int) : Sight :=
  let atx := tc actor.x
  let aty := tc actor.y
  let ox := clamp (atx - radius) 0 (level.width - 1)
  let oy := clamp (aty - radius) 0 (level.height - 1)
  let side := (radius + 1) * (radius + 1)
  let w := clamp side 1 (level.width - ox)
  let h := clamp side 1 (level.height - oy)
  let s0 : Sight := ⟨ox, oy, w, h, List.replicate (w * h).toNat false⟩
  circleLoop level atx aty s0 radius 0 (1 - radius * 2) 0 0

/-- Modelled from the spec, for comparison with `sight_get` (claim C4): a tile
is reported visible iff its own bit is set, or all four orthogonal neighbours
— left, right, up, down, a neighbour clamped away at a window edge counting as
satisfied — are set. -/
def sight_get_spec (sight : Sight) (x y : Int) : Bool :=
  let sx := x - sight.ox
  let sy := y - sight.oy
  if sx < 0 ∨ sy < 0 ∨ sx ≥ sight.width ∨ sy ≥ sight.height then false
  else
    sightIdx sight (sy * sight.width + sx) ||
      ((sx == 0 || sightIdx sight (sy * sight.width + sx - 1)) &&
       (sx == sight.width - 1 || sightIdx sight (sy * sight.width + sx + 1)) &&
       (sy == 0 || sightIdx sight ((sy - 1) * sight.width + sx)) &&
       (sy == sight.height - 1 || sightIdx sight ((sy + 1) * sight.width + sx)))

/-- Counterexample sight table for C4: a 3×3 window where the left (0,1),
right (2,1) and up (1,0) neighbours of the centre (1,1) are marked but the
centre itself and its down neighbour (1,2) are not. -/
def c4Sight : Sight :=
  ⟨0, 0, 3, 3, [false, true, false, true, false, true, false, false, false]⟩

/-- Levels for C10's witness: a 1×3 corridor that is all open (`losLvlOpen`)
and the same corridor with a wall at the destination tile (2,0)
(`losLvlWall`). -/
def losLvlOpen : Level := ⟨3, 1, [openTile, openTile, openTile]⟩

/-- Same as `losLvlOpen` except the destination tile (2,0) is a wall. -/
def losLvlWall : Level := ⟨3, 1, [openTile, openTile, wallTile]⟩

/-- Extension order on sight tables: same window, and every set bit stays set.
Every operation of the visibility engine only ever sets bits, so each step of
`compute_sight` extends the table in this sense. -/
def SightExt (s t : Sight) : Prop :=
  t.ox = s.ox ∧ t.oy = s.oy ∧ t.width = s.width ∧ t.height = s.height ∧
  ∀ i : ℕ, s.tiles.getD i false = true → t.tiles.getD i false = true

/-- Observer for C3's witness: standing at the centre of tile (1, 0). -/
def c3Actor : Actor := init_actor 4800 1600 0 1500

/-- Source `dot_product`. -/
noncomputable def dot_product (x1 y1 x2 y2 : ℝ) : ℝ := x1 * x2 + y1 * y2

/-- Source `length`: Euclidean length of (x, y). -/
noncomputable def length (x y : ℝ) : ℝ := Real.sqrt (x * x + y * y)

/-- Source `find_push`: corner push along the unit direction (dirx, diry),
with magnitude `max 0 (r + dir·thw - tp_len)` (written as the source's guard). -/
noncomputable def find_push (dirx diry thwx thwy r tp_len : ℝ) : ℝ × ℝ :=
  let dp := dot_product dirx diry thwx thwy
  let push_len := r + dp - tp_len
  let push_len := if push_len < 0 then 0 else push_len
  (dirx * push_len, diry * push_len)

/-- The half-penetration push vector computed inside `collide_actor_actor`:
`0.5 * overlap * (dx, dy) / d_len`. -/
noncomputable def half_push (a b : Actor) : ℝ × ℝ :=
  let dx : ℝ := (b.x : ℝ) - (a.x : ℝ)
  let dy : ℝ := (b.y : ℝ) - (a.y : ℝ)
  let d_len := length dx dy
  let overlap := (a.radius : ℝ) + (b.radius : ℝ) - d_len
  (0.5 * overlap * dx / d_len, 0.5 * overlap * dy / d_len)

/-- The integer displacement the collision code applies for a real push
component `p`: `round(p + 0.5 * sign(p))`, i.e. round half away from zero
after biasing away from zero. -/
noncomputable def push_round (p : ℝ) : Int := cround (p + 0.5 * (csign p : ℝ))

/-- Source `collide_actor_actor`: if the actors overlap, push each apart by
the same rounded half-penetration vector in opposite directions and report
movement; otherwise leave both unchanged. -/
noncomputable def collide_actor_actor (a b : Actor) : (Actor × Actor) × Bool :=
  let dx : ℝ := (b.x : ℝ) - (a.x : ℝ)
  let dy : ℝ := (b.y : ℝ) - (a.y : ℝ)
  let d_len := length dx dy
  let overlap := (a.radius : ℝ) + (b.radius : ℝ) - d_len
  if overlap > 0 then
    (({ a with x := a.x - push_round (half_push a b).1,
               y := a.y - push_round (half_push a b).2 },
      { b with x := b.x + push_round (half_push a b).1,
               y := b.y + push_round (half_push a b).2 }), true)
  else ((a, b), false)

/-- First coincident actor for C7's counterexample. -/
def c7a : Actor := init_actor 0 0 0 150

/-- Second coincident actor for C7's counterexample (same centre as `c7a`). -/
def c7b : Actor := init_actor 0 0 90 150

/-- First actor for C7's witness: centre (0,0), radius 150. -/
def c7c : Actor := init_actor 0 0 0 150

/-- Second actor for C7's witness: centre (100,0), radius 150 — deeply
overlapping `c7c` along the x-axis. -/
def c7d : Actor := init_actor 100 0 0 150

/-- The inclusive integer range `[a, b]`, as iterated by the C `for` loops. -/
def rangeInt (a b : Int) : List Int := (List.range (b + 1 - a).toNat).map (fun k => a + (k : Int))

/-- The body of the tile loop in source `collide_level_actor`: bounding-box
early rejects, then — for a non-passable tile — the Voronoi-classified push,
rounded half away from zero and applied if nonzero.  (The `mark` call of the
first program's `collide` is commented out in this version.) -/
noncomputable def tile_collide (level : Level) (y x : Int) (acc : Actor × Bool) : Actor × Bool :=
  let actor := acc.1
  let tcx := pc_corner x
  let tcy := pc_corner y
  let al := actor.x - actor.radius
  let at' := actor.y - actor.radius
  let ar := actor.x + actor.radius
  let ab := actor.y + actor.radius
  if ar ≤ tcx then acc
  else if ab ≤ tcy then acc
  else if al ≥ tcx + TILE_SIZE then acc
  else if at' ≥ tcy + TILE_SIZE then acc
  else if passable level x y then acc
  else
    let tpx : ℝ := (actor.x : ℝ) - (pc x : ℝ)
    let tpy : ℝ := (actor.y : ℝ) - (pc y : ℝ)
    let tp_len := length tpx tpy
    let dirx := tpx / tp_len
    let diry := tpy / tp_len
    let tr : Int := TILE_SIZE / 2
    let voronoi := find_voronoi x y actor.x actor.y
    let push : ℝ × ℝ :=
      if voronoi = 2 then (0, ((tcy - ab : Int) : ℝ))
      else if voronoi = 4 then (((tcx - ar : Int) : ℝ), 0)
      else if voronoi = 6 then (((tcx + TILE_SIZE - al : Int) : ℝ), 0)
      else if voronoi = 8 then (0, ((tcy + TILE_SIZE - at' : Int) : ℝ))
      else if voronoi = 1 then find_push dirx diry (-(tr : ℝ)) (-(tr : ℝ)) (actor.radius : ℝ) tp_len
      else if voronoi = 3 then find_push dirx diry ((tr : ℝ)) (-(tr : ℝ)) (actor.radius : ℝ) tp_len
      else if voronoi = 7 then find_push dirx diry (-(tr : ℝ)) ((tr : ℝ)) (actor.radius : ℝ) tp_len
      else if voronoi = 9 then find_push dirx diry ((tr : ℝ)) ((tr : ℝ)) (actor.radius : ℝ) tp_len
      else (0, 0)
    let ix := cround (push.1 + 0.5 * (csign push.1 : ℝ))
    let iy := cround (push.2 + 0.5 * (csign push.2 : ℝ))
    if ix ≠ 0 ∨ iy ≠ 0 then ({ actor with x := actor.x + ix, y := actor.y + iy }, true)
    else acc

/-- Source `collide_level_actor`: sweep every tile whose cell box meets the
actor's bounding box (the tile range is fixed from the actor's entry
position, as in C) and resolve each overlap; report whether anything moved. -/
noncomputable def collide_level_actor (level : Level) (actor : Actor) : Actor × Bool :=
  let left := tc (actor.x - actor.radius)
  let right := tc (actor.x + actor.radius)
  let top := tc (actor.y - actor.radius)
  let bottom := tc (actor.y + actor.radius)
  (rangeInt top bottom).foldl
    (fun acc y => (rangeInt left right).foldl (fun acc2 x => tile_collide level y x acc2) acc)
    (actor, false)

/-- The `collide_level_actor(actors[i])` loop of `game`: each actor is
resolved against the level independently. -/
noncomputable def collideActorsLevel (level : Level) (actors : List Actor) : List Actor × Bool :=
  ((actors.map (collide_level_actor level)).map Prod.fst,
   (actors.map (collide_level_actor level)).any Prod.snd)

/-- The `collide_actor_actor(player, actors[i])` loop of `game`: the player is
threaded through the sequence, each actor is updated in place. -/
noncomputable def collidePlayerActors (player : Actor) (actors : List Actor) :
    (Actor × List Actor) × Bool :=
  let r := actors.foldl
    (fun (st : Actor × List Actor × Bool) a =>
      let res := collide_actor_actor st.1 a
      (res.1.1, st.2.1 ++ [res.1.2], st.2.2 || res.2))
    (player, [], false)
  ((r.1, r.2.1), r.2.2)

/-- The pairwise `collide_actor_actor(actors[i], actors[j])`, `j > i`, loop of
`game`, with in-place updates of both actors. -/
noncomputable def collidePairs (actors : List Actor) : List Actor × Bool :=
  (List.range actors.length).foldl
    (fun (st : List Actor × Bool) i =>
      (List.range actors.length).foldl
        (fun (st2 : List Actor × Bool) j =>
          if i < j then
            let res := collide_actor_actor (st2.1.getD i (init_actor 0 0 0 0))
              (st2.1.getD j (init_actor 0 0 0 0))
            ((st2.1.set i res.1.1).set j res.1.2, st2.2 || res.2)
          else st2)
        st)
    (actors, false)

/-- One full pass of the collision relaxation loop in `game`: player against
tiles, every actor against tiles, player against every actor, every actor
pair; `moved` is the disjunction exactly as accumulated by the C code. -/
noncomputable def collisionPass (level : Level) (player : Actor) (actors : List Actor) :
    (Actor × List Actor) × Bool :=
  let r1 := collide_level_actor level player
  let r2 := collideActorsLevel level actors
  let r3 := collidePlayerActors r1.1 r2.1
  let r4 := collidePairs r3.1.2
  ((r3.1.1, r4.1), r1.2 || r2.2 || r3.2 || r4.2)

/-- The bounded do-while of `game` (`tries = 10`): run passes while one moves
and retries remain; at the bound, log and accept the current state.  The
first component is the final state; the second counts the passes performed —
the fuel is exactly the C loop counter `i` checked against `tries`. -/
noncomputable def relaxLoop (level : Level) : ℕ → Actor → List Actor → (Actor × List Actor) × ℕ
  | 0, player, actors => ((player, actors), 0)
  | n + 1, player, actors =>
    let r := collisionPass level player actors
    if r.2 then
      let rest := relaxLoop level n r.1.1 r.1.2
      (rest.1, rest.2 + 1)
    else (r.1, 1)

/-- A 1×1 all-open level (witness input for C8). -/
def c8Lvl : Level := ⟨1, 1, [openTile]⟩

/-- A player standing centred in `c8Lvl`, overlapping no wall (witness input
for C8). -/
def c8Player : Actor := init_actor 1600 1600 0 1500

-- ------------------------------------------------------------------
-- Theorems
-- ------------------------------------------------------------------

/-- Iterating the level-wide timer step on the one-tile door level is
iterating the per-tile step on the door. -/
theorem check_tiles_iterate_door (n : ℕ) :
    check_tiles^[n] doorLvl = ⟨1, 1, [checkTile^[n] (triggerActivation doorTile)]⟩ := by
  induction n with
  | zero => rfl
  | succ n ih =>
      rw [Function.iterate_succ_apply', ih, Function.iterate_succ_apply']
      rfl

/-- For the first ten ticks after triggering, the door only counts down:
after `n ≤ 10` ticks its countdown is `10 - n` and nothing else changed. -/
theorem door_countdown (n : ℕ) (h : n ≤ 10) :
    checkTile^[n] (triggerActivation doorTile) =
      { doorTile with flips_in := 10 - (n : Int) } := by
  induction n with
  | zero => rfl
  | succ n ih =>
      have hn : n ≤ 10 := by omega
      rw [Function.iterate_succ_apply', ih hn]
      have hpos : (10 : Int) - (n : Int) > 0 := by omega
      have harith : (10 : Int) - (n : Int) - 1 = 10 - ((n : Int) + 1) := by ring
      simp [checkTile, hpos, harith]

/-- After eleven timer advances the triggered door has flipped: active, with
the countdown cleared to -1. -/
theorem door_flipped :
    checkTile^[11] (triggerActivation doorTile) =
      { doorTile with flips_in := -1, active := true } := by
  rw [show (11 : ℕ) = 1 + 10 from rfl, Function.iterate_add_apply,
    door_countdown 10 (by omega)]
  decide

/-- The level after eleven timer advances, in closed form. -/
theorem check_tiles_11 :
    check_tiles^[11] doorLvl = ⟨1, 1, [{ doorTile with flips_in := -1, active := true }]⟩ := by
  rw [check_tiles_iterate_door 11, door_flipped]

/-- The timer step leaves the flipped door level fixed (its countdown is -1). -/
theorem check_tiles_door_fixed :
    check_tiles (check_tiles^[11] doorLvl) = check_tiles^[11] doorLvl := by
  rw [check_tiles_11]
  decide

/-- C2 counterexample: the claim says the door's `active` flag toggles at tick
`T+10`, but after ten timer advances the countdown has merely reached zero;
the tile is still inactive (and non-passable, non-see-through), and the toggle
happens on the eleventh advance. -/
theorem C2_counterexample :
    (tile_at (check_tiles^[10] doorLvl) 0 0).active = false ∧
    passable (check_tiles^[10] doorLvl) 0 0 = false ∧
    see_through (check_tiles^[10] doorLvl) 0 0 = false ∧
    (tile_at (check_tiles^[11] doorLvl) 0 0).active = true := by
  rw [check_tiles_iterate_door 10, door_countdown 10 (by omega), check_tiles_11]
  refine ⟨rfl, rfl, rfl, rfl⟩

/-- C2 (amended): a door with `activation_time = 10` triggered at tick T stays
non-passable, non-see-through and inactive through the timer advances of ticks
T+1 … T+10; the eleventh advance (tick T+11) toggles `active`, flipping
passability and see-through, and with no further trigger the level never
changes again. -/
theorem C2_amended (n m : ℕ) (_h1 : 1 ≤ n) (h2 : n ≤ 10) (h3 : 11 ≤ m) :
    passable (check_tiles^[n] doorLvl) 0 0 = false ∧
    see_through (check_tiles^[n] doorLvl) 0 0 = false ∧
    (tile_at (check_tiles^[n] doorLvl) 0 0).active = false ∧
    (tile_at (check_tiles^[11] doorLvl) 0 0).active = true ∧
    passable (check_tiles^[11] doorLvl) 0 0 = true ∧
    see_through (check_tiles^[11] doorLvl) 0 0 = true ∧
    check_tiles^[m] doorLvl = check_tiles^[11] doorLvl := by
  have hlvl := check_tiles_iterate_door n
  have hdoor := door_countdown n h2
  obtain ⟨k, rfl⟩ : ∃ k, m = k + 11 := ⟨m - 11, by omega⟩
  refine ⟨?_, ?_, ?_, ?_, ?_, ?_, ?_⟩
  · rw [hlvl, hdoor]; rfl
  · rw [hlvl, hdoor]; rfl
  · rw [hlvl, hdoor]; rfl
  · rw [check_tiles_11]; rfl
  · rw [check_tiles_11]; rfl
  · rw [check_tiles_11]; rfl
  · rw [Function.iterate_add_apply]
    exact Function.iterate_fixed check_tiles_door_fixed k

/-- Witness for C2 (amended), at n = 5 and m = 20. -/
theorem C2_amended_witness :
    ((1 : ℕ) ≤ 5 ∧ (5 : ℕ) ≤ 10 ∧ (11 : ℕ) ≤ 20) ∧
    (passable (check_tiles^[5] doorLvl) 0 0 = false ∧
     see_through (check_tiles^[5] doorLvl) 0 0 = false ∧
     (tile_at (check_tiles^[5] doorLvl) 0 0).active = false ∧
     (tile_at (check_tiles^[11] doorLvl) 0 0).active = true ∧
     passable (check_tiles^[11] doorLvl) 0 0 = true ∧
     see_through (check_tiles^[11] doorLvl) 0 0 = true ∧
     check_tiles^[20] doorLvl = check_tiles^[11] doorLvl) :=
  ⟨by decide, C2_amended 5 20 (by decide) (by decide) (by decide)⟩

/-- C5: the claim says that reaching a non-home target without line of sight
arms the give-up deadline `F + 60`.  The arrival branch of `move_actors` arms
it only when BOTH target coordinates differ from the home coordinates
(`tx != base_x && ty != base_y`).  For `c5Actor`, whose arrived target
(4800, 4800) is not its home pose (4800, 8000) — as the code's own
`is_chasing` (which uses `||`) agrees — the deadline stays unarmed (-1) while
the target is cleared, contradicting the claim. -/
theorem C5_deadline_not_armed :
    (c5Actor.tx, c5Actor.ty) ≠ (c5Actor.base_x, c5Actor.base_y) ∧
    is_chasing c5Actor = true ∧
    (arrivalUpdate 100 c5Actor).give_up_at = -1 ∧
    (arrivalUpdate 100 c5Actor).tx = -1 ∧
    (arrivalUpdate 100 c5Actor).ty = -1 := by
  decide

/-- C6: when the actor center is in no corner region and the offsets from the
tile center tie in magnitude (`|dx| = |dy|`), `find_voronoi` takes the
vertical-edge branch: region 2 (top) when `dy ≤ 0`, region 8 (bottom)
otherwise. -/
theorem C6_tie_break (tx ty ax ay : Int)
    (h1 : ¬(ay < pc_corner ty ∧ ax < pc_corner tx))
    (h2 : ¬(ay < pc_corner ty ∧ ax > pc_corner tx + TILE_SIZE))
    (h3 : ¬(ay > pc_corner ty + TILE_SIZE ∧ ax < pc_corner tx))
    (h4 : ¬(ay > pc_corner ty + TILE_SIZE ∧ ax > pc_corner tx + TILE_SIZE))
    (h5 : |ax - pc tx| = |ay - pc ty|) :
    find_voronoi tx ty ax ay = if ay - pc ty ≤ 0 then 2 else 8 := by
  simp only [find_voronoi]
  rw [if_neg h1, if_neg h2, if_neg h3, if_neg h4, h5, if_neg (lt_irrefl _)]

/-- Witness for C6: actor center (1605, 1595) against tile (0,0); offsets from
the tile center (1600, 1600) are (5, -5), a tie, and `dy = -5 ≤ 0` selects
region 2. -/
theorem C6_tie_break_witness : find_voronoi 0 0 1605 1595 = 2 := by
  have h := C6_tie_break 0 0 1605 1595 (by decide) (by decide) (by decide)
    (by decide) (by decide)
  rw [h]
  decide

/-- One `mark` call keeps `len ≤ max_len` and never changes `max_len`. -/
theorem mark_bound (l : MarkList) (r : MarkReason) (x y : Int)
    (h : l.len ≤ l.max_len) :
    (mark l r x y).len ≤ (mark l r x y).max_len ∧
    (mark l r x y).max_len = l.max_len := by
  unfold mark
  split
  · exact ⟨h, rfl⟩
  · constructor
    · simp only []
      omega
    · rfl

/-- Any sequence of `mark` calls keeps `len ≤ max_len`. -/
theorem mark_fold_bound (calls : List (MarkReason × Int × Int)) :
    ∀ l : MarkList, l.len ≤ l.max_len →
      (calls.foldl (fun acc c => mark acc c.1 c.2.1 c.2.2) l).len ≤
        (calls.foldl (fun acc c => mark acc c.1 c.2.1 c.2.2) l).max_len := by
  induction calls with
  | nil => exact fun l h => h
  | cons c rest ih =>
      intro l h
      exact ih _ (mark_bound l c.1 c.2.1 c.2.2 h).1

/-- C9: a `mark` call on a full list (`len = max_len`) leaves the list
unchanged; on a non-full list it appends exactly one mark and increments
`len`; consequently `len` never exceeds `max_len` along any sequence of
`mark` calls started within capacity. -/
theorem C9_mark_capacity (list : MarkList) (reason : MarkReason) (x y : Int) :
    (list.len = list.max_len → mark list reason x y = list) ∧
    (list.len < list.max_len →
      (mark list reason x y).len = list.len + 1 ∧
      (mark list reason x y).marks = list.marks ++ [⟨reason, x, y⟩] ∧
      (mark list reason x y).max_len = list.max_len) ∧
    (∀ calls : List (MarkReason × Int × Int),
      list.len ≤ list.max_len →
      (calls.foldl (fun acc c => mark acc c.1 c.2.1 c.2.2) list).len ≤
        (calls.foldl (fun acc c => mark acc c.1 c.2.1 c.2.2) list).max_len) := by
  refine ⟨fun h => by simp [mark, h], fun h => ?_, fun calls h => mark_fold_bound calls list h⟩
  have hne : ¬ list.len = list.max_len := by omega
  simp [mark, hne]

/-- Witness for C9: a full list is left unchanged; an empty list of capacity 3
grows to length 1. -/
theorem C9_mark_capacity_witness :
    (fullMarks.len = fullMarks.max_len ∧ mark fullMarks .MARK_DOT 1 2 = fullMarks) ∧
    (emptyMarks.len < emptyMarks.max_len ∧ (mark emptyMarks .MARK_DOT 1 2).len = emptyMarks.len + 1) :=
  ⟨⟨by decide, (C9_mark_capacity fullMarks .MARK_DOT 1 2).1 (by decide)⟩,
   ⟨by decide, ((C9_mark_capacity emptyMarks .MARK_DOT 1 2).2.1 (by decide)).1⟩⟩

/-- C1: the claim says `neighbors` passes only in-bounds coordinates to the
grid queries.  The code instead guards the right/down neighbours with
`x < width` / `y < height` (instead of `x + 1 < width` / `y + 1 < height`), so
for the in-bounds cell (1,1) of a 2×2 level it queries `passable` — and hence
`tile_at` — at (2,1) and (1,2), i.e. at x = width and y = height.  This
evaluates the code at the failing input. -/
theorem C1_out_of_bounds_query :
    ((2, 1) ∈ (neighbors lvl2x2 1 1).2) ∧ ((1, 2) ∈ (neighbors lvl2x2 1 1).2) := by
  decide

/-- C4: the claim reads `sight_get` as "marked, or all four orthogonal
neighbours marked".  In `c4Sight` the centre (1,1) is unmarked, its left,
right and up neighbours are marked, and its down neighbour (1,2) is unmarked:
the claimed reading reports not-visible, but the code returns visible, because
its fourth conjunct re-reads the left neighbour (row-major index
`sy * width + sx - 1`) instead of the down neighbour. -/
theorem C4_down_neighbor_ignored :
    sight_get c4Sight 1 1 = true ∧
    sight_get_spec c4Sight 1 1 = false ∧
    sightIdx c4Sight ((1 + 1) * c4Sight.width + 1) = false := by
  decide

/-- The two line-of-sight walks agree step for step when the levels agree
everywhere except possibly at the walk's endpoint, because the endpoint test
precedes the callback: `see_through` is never consulted at the endpoint. -/
theorem losAux_agree (l1 l2 : Level) (x2 y2 dx dy sx sy : Int)
    (hagree : ∀ x y : Int, ¬(x = x2 ∧ y = y2) → see_through l1 x y = see_through l2 x y) :
    ∀ (n : ℕ) (x0 y0 err : Int),
      bresenhamAux (losCb l1) x2 y2 dx dy sx sy n x0 y0 err () =
        bresenhamAux (losCb l2) x2 y2 dx dy sx sy n x0 y0 err () := by
  intro n
  induction n with
  | zero => intro x0 y0 err; rfl
  | succ n ih =>
      intro x0 y0 err
      by_cases h : x0 = x2 ∧ y0 = y2
      · simp only [bresenhamAux, if_pos h]
      · have hst := hagree x0 y0 h
        simp only [bresenhamAux, if_neg h, losCb, hst]
        split
        · exact ih _ _ _
        · rfl

/-- C10: `line_of_sight` never evaluates the opacity of its destination tile:
for any two levels that agree on `see_through` everywhere except possibly at
the destination (x2,y2), the result is identical — in particular line of
sight can be had to a coordinate whose own tile is opaque. -/
theorem C10_los_ignores_destination (l1 l2 : Level) (x1 y1 x2 y2 : Int)
    (hagree : ∀ x y : Int, ¬(x = x2 ∧ y = y2) → see_through l1 x y = see_through l2 x y) :
    line_of_sight l1 x1 y1 x2 y2 = line_of_sight l2 x1 y1 x2 y2 := by
  simp only [line_of_sight, bresenham]
  rw [losAux_agree l1 l2 x2 y2 _ _ _ _ hagree]

/-- Out-of-range grid queries see the guard tile, which is never see-through. -/
theorem see_through_oob (lvl : Level) (x y : Int)
    (h : ¬(0 ≤ x ∧ x < lvl.width ∧ 0 ≤ y ∧ y < lvl.height)) :
    see_through lvl x y = false := by
  unfold see_through tile_at
  rw [if_neg h]
  rfl

/-- Witness for C10: the open corridor and the corridor with a wall at the
destination tile (2,0) agree away from the destination, get the same
line-of-sight verdict from (0,0), and that verdict is `true` even though the
destination tile of `losLvlWall` is opaque. -/
theorem C10_los_ignores_destination_witness :
    (∀ x y : Int, ¬(x = 2 ∧ y = 0) → see_through losLvlOpen x y = see_through losLvlWall x y) ∧
    line_of_sight losLvlOpen 0 0 2 0 = line_of_sight losLvlWall 0 0 2 0 ∧
    line_of_sight losLvlWall 0 0 2 0 = true := by
  have hag : ∀ x y : Int, ¬(x = 2 ∧ y = 0) →
      see_through losLvlOpen x y = see_through losLvlWall x y := by
    intro x y h
    by_cases hin : 0 ≤ x ∧ x < (3 : Int) ∧ 0 ≤ y ∧ y < (1 : Int)
    · have hy : y = 0 := by omega
      subst hy
      have hx : x = 0 ∨ x = 1 := by
        rcases hin with ⟨h1, h2, -, -⟩
        by_cases hx2 : x = 2
        · exact absurd ⟨hx2, rfl⟩ h
        · omega
      rcases hx with rfl | rfl <;> rfl
    · rw [see_through_oob losLvlOpen x y hin, see_through_oob losLvlWall x y hin]
  exact ⟨hag, C10_los_ignores_destination losLvlOpen losLvlWall 0 0 2 0 hag, by decide⟩

/-- Setting any position in a boolean list to `true` preserves every `true`. -/
theorem getD_set_mono : ∀ (l : List Bool) (j i : ℕ), l.getD i false = true →
    (l.set j true).getD i false = true := by
  intro l
  induction l with
  | nil => intro j i h; simp at h
  | cons a t ih =>
      intro j i h
      cases j with
      | zero =>
          cases i with
          | zero => rfl
          | succ i => simpa using h
      | succ j =>
          cases i with
          | zero => simpa using h
          | succ i => simpa using ih j i (by simpa using h)

/-- Setting an in-range position to `true` makes it read back `true`. -/
theorem getD_set_self : ∀ (l : List Bool) (n : ℕ), n < l.length →
    (l.set n true).getD n false = true := by
  intro l
  induction l with
  | nil => intro n h; simp at h
  | cons a t ih =>
      intro n h
      cases n with
      | zero => rfl
      | succ n => simpa using ih n (by simpa using h)

/-- `SightExt` is reflexive. -/
theorem sightExt_refl (s : Sight) : SightExt s s :=
  ⟨rfl, rfl, rfl, rfl, fun _ h => h⟩

/-- `SightExt` is transitive. -/
theorem sightExt_trans {a b c : Sight} (h1 : SightExt a b) (h2 : SightExt b c) :
    SightExt a c :=
  ⟨h2.1.trans h1.1, h2.2.1.trans h1.2.1, h2.2.2.1.trans h1.2.2.1,
   h2.2.2.2.1.trans h1.2.2.2.1, fun i h => h2.2.2.2.2 i (h1.2.2.2.2 i h)⟩

/-- `sight_set` only ever sets a bit: it extends the table. -/
theorem sight_set_ext (s : Sight) (x y : Int) : SightExt s (sight_set s x y) := by
  unfold sight_set
  dsimp only
  split
  · exact ⟨rfl, rfl, rfl, rfl, fun i h => getD_set_mono _ _ i h⟩
  · exact sightExt_refl s

/-- The ray walk with the sight callback only extends the table. -/
theorem bres_aux_ext (lvl : Level) (x1 y1 dx dy sx sy : Int) :
    ∀ (n : ℕ) (x0 y0 err : Int) (s : Sight),
      SightExt s (bresenhamAux (sightCb lvl) x1 y1 dx dy sx sy n x0 y0 err s).1 := by
  intro n
  induction n with
  | zero => intro x0 y0 err s; exact sightExt_refl s
  | succ n ih =>
      intro x0 y0 err s
      simp only [bresenhamAux, sightCb]
      split
      · exact sightExt_refl s
      · split
        · exact sightExt_trans (sight_set_ext s x0 y0) (ih _ _ _ _)
        · exact sight_set_ext s x0 y0

/-- A full ray cast only extends the table. -/
theorem bres_ext (lvl : Level) (x0 y0 x1 y1 : Int) (s : Sight) :
    SightExt s (bresenham (sightCb lvl) x0 y0 x1 y1 s).1 := by
  unfold bresenham
  exact bres_aux_ext lvl x1 y1 _ _ _ _ _ x0 y0 _ s

/-- One octant's 8 rays only extend the table. -/
theorem ray8_ext (lvl : Level) (atx aty x y : Int) (s : Sight) :
    SightExt s (ray8 lvl atx aty x y s) := by
  unfold ray8
  exact sightExt_trans (bres_ext _ _ _ _ _ _)
    (sightExt_trans (bres_ext _ _ _ _ _ _)
      (sightExt_trans (bres_ext _ _ _ _ _ _)
        (sightExt_trans (bres_ext _ _ _ _ _ _)
          (sightExt_trans (bres_ext _ _ _ _ _ _)
            (sightExt_trans (bres_ext _ _ _ _ _ _)
              (sightExt_trans (bres_ext _ _ _ _ _ _) (bres_ext _ _ _ _ _ _)))))))

/-- The whole circle loop only extends the table. -/
theorem circle_ext (lvl : Level) (atx aty : Int) (x y dx dy err : Int) (s : Sight) :
    SightExt s (circleLoop lvl atx aty s x y dx dy err) := by
  rw [circleLoop]
  split
  · split
    · exact sightExt_trans (ray8_ext lvl atx aty x y s) (circle_ext lvl atx aty _ _ _ _ _ _)
    · exact sightExt_trans (ray8_ext lvl atx aty x y s) (circle_ext lvl atx aty _ _ _ _ _ _)
  · exact sightExt_refl s
termination_by (x + 1 - y).toNat
decreasing_by
  all_goals simp_wf
  all_goals omega

/-- A ray whose endpoint differs from its start first marks its start tile:
the walk's very first callback call is `sight_set` at (x0, y0). -/
theorem bres_marks_start (lvl : Level) (x0 y0 x1 y1 : Int) (s : Sight)
    (h : ¬(x0 = x1 ∧ y0 = y1)) :
    SightExt (sight_set s x0 y0) (bresenham (sightCb lvl) x0 y0 x1 y1 s).1 := by
  unfold bresenham
  dsimp only
  obtain ⟨n, hn⟩ : ∃ n, (|x1 - x0| + |y1 - y0| + 1).toNat = n + 1 :=
    ⟨(|x1 - x0| + |y1 - y0|).toNat, by
      have h1 : (0 : Int) ≤ |x1 - x0| := abs_nonneg _
      have h2 : (0 : Int) ≤ |y1 - y0| := abs_nonneg _
      omega⟩
  rw [hn]
  simp only [bresenhamAux, sightCb, if_neg h]
  split
  · exact bres_aux_ext lvl x1 y1 _ _ _ _ n _ _ _ _
  · exact sightExt_refl _

/-- Row-major index bounds: an in-window cell lands strictly inside the table. -/
theorem rowmajor_bounds (sx sy w h : Int) (h1 : 0 ≤ sx) (h2 : sx < w)
    (h3 : 0 ≤ sy) (h4 : sy < h) :
    0 ≤ sy * w + sx ∧ sy * w + sx < w * h := by
  have hw : 0 < w := lt_of_le_of_lt h1 h2
  have hnn : 0 ≤ sy * w := mul_nonneg h3 (le_of_lt hw)
  constructor
  · omega
  · have hy : sy ≤ h - 1 := by omega
    have := mul_le_mul_of_nonneg_right hy (le_of_lt hw)
    nlinarith

/-- `sight_set` at an in-window coordinate makes the corresponding row-major
bit read back `true` (provided the table really has `width * height` cells). -/
theorem sight_set_marks (s : Sight) (x y : Int)
    (h1 : 0 ≤ x - s.ox) (h2 : 0 ≤ y - s.oy)
    (h3 : x - s.ox < s.width) (h4 : y - s.oy < s.height)
    (hlen : (s.width * s.height).toNat ≤ s.tiles.length) :
    (sight_set s x y).tiles.getD ((y - s.oy) * s.width + (x - s.ox)).toNat false = true := by
  unfold sight_set
  dsimp only
  rw [if_pos ⟨h1, h2, h3, h4⟩]
  obtain ⟨hnn, hlt⟩ := rowmajor_bounds (x - s.ox) (y - s.oy) s.width s.height h1 h3 h2 h4
  exact getD_set_self _ _ (by omega)

/-- If the first octant offset is nonzero, the circle loop marks the observer
tile: its very first ray starts with `sight_set` at (atx, aty), and everything
afterwards only extends the table. -/
theorem circle_first_marks (lvl : Level) (atx aty x y dx dy err : Int) (s : Sight)
    (hyx : y ≤ x) (hne : ¬(atx = atx + x ∧ aty = aty + y)) :
    SightExt (sight_set s atx aty) (circleLoop lvl atx aty s x y dx dy err) := by
  have h8 : SightExt (sight_set s atx aty) (ray8 lvl atx aty x y s) := by
    unfold ray8
    exact sightExt_trans (bres_marks_start lvl atx aty (atx + x) (aty + y) s hne)
      (sightExt_trans (bres_ext _ _ _ _ _ _)
        (sightExt_trans (bres_ext _ _ _ _ _ _)
          (sightExt_trans (bres_ext _ _ _ _ _ _)
            (sightExt_trans (bres_ext _ _ _ _ _ _)
              (sightExt_trans (bres_ext _ _ _ _ _ _)
                (sightExt_trans (bres_ext _ _ _ _ _ _) (bres_ext _ _ _ _ _ _)))))))
  rw [circleLoop]
  rw [if_pos (by omega : x ≥ y)]
  split
  · exact sightExt_trans h8 (circle_ext lvl atx aty _ _ _ _ _ _)
  · exact sightExt_trans h8 (circle_ext lvl atx aty _ _ _ _ _ _)

/-- `sight_get` reports a directly marked in-window tile as seen. -/
theorem sight_get_of_marked (s : Sight) (x y : Int)
    (h1 : 0 ≤ x - s.ox) (h2 : 0 ≤ y - s.oy)
    (h3 : x - s.ox < s.width) (h4 : y - s.oy < s.height)
    (hm : s.tiles.getD ((y - s.oy) * s.width + (x - s.ox)).toNat false = true) :
    sight_get s x y = true := by
  unfold sight_get
  dsimp only
  rw [if_neg (by push_neg; exact ⟨h1, h2, h3, h4⟩)]
  have hw : 0 < s.width := lt_of_le_of_lt h1 h3
  have hnn : 0 ≤ (y - s.oy) * s.width := mul_nonneg h2 (le_of_lt hw)
  have hidx : sightIdx s ((y - s.oy) * s.width + (x - s.ox)) = true := by
    unfold sightIdx
    rw [if_neg (by omega : ¬((y - s.oy) * s.width + (x - s.ox) < 0))]
    exact hm
  rw [hidx]
  simp

/-- A zero-length ray returns success immediately without any callback. -/
theorem bres_self {σ : Type} (cb : Int → Int → σ → σ × Bool) (x y : Int) (s : σ) :
    bresenham cb x y x y s = (s, true) := by
  unfold bresenham
  simp [bresenhamAux]

/-- At radius 0 every ray is zero-length, so the circle loop changes nothing. -/
theorem circle_radius0 (lvl : Level) (atx aty : Int) (s : Sight) :
    circleLoop lvl atx aty s 0 0 1 0 0 = s := by
  have h8 : ray8 lvl atx aty 0 0 s = s := by
    unfold ray8
    simp [bres_self]
  rw [circleLoop]
  rw [if_pos (le_refl (0 : Int))]
  rw [if_pos (by norm_num : 2 * ((0 : Int) + 0) + 1 > 0)]
  rw [h8, circleLoop]
  rw [if_neg (by norm_num : ¬((0 : Int) - 1 ≥ 0 + 1))]

/-- In a 1×1 window anchored at the queried coordinate, `sight_get` returns
`true`: the tile's own bit may be unset, but all four neighbour clamps fire. -/
theorem sight_get_1x1 (s : Sight) (x y : Int) (hox : s.ox = x) (hoy : s.oy = y)
    (hw : s.width = 1) (hh : s.height = 1) : sight_get s x y = true := by
  unfold sight_get
  dsimp only
  rw [hox, hoy, hw, hh]
  simp

/-- For any window anchor containing the observer and any initial circle error
term, the ray fan started at octant offset `radius ≥ 1` marks the observer's
tile and `sight_get` reports it seen. -/
theorem compute_marks_general (lvl : Level) (atx aty ox oy w h : Int)
    (h1 : 0 ≤ atx - ox) (h2 : 0 ≤ aty - oy) (h3 : atx - ox < w) (h4 : aty - oy < h)
    (radius dx' : Int) (hr1 : 1 ≤ radius) :
    sight_get
      (circleLoop lvl atx aty ⟨ox, oy, w, h, List.replicate (w * h).toNat false⟩
        radius 0 dx' 0 0) atx aty = true := by
  have hne : ¬(atx = atx + radius ∧ aty = aty + 0) := by
    rintro ⟨ha, -⟩
    omega
  have hext := circle_first_marks lvl atx aty radius 0 dx' 0 0
    ⟨ox, oy, w, h, List.replicate (w * h).toNat false⟩ (by omega) hne
  have hmark := sight_set_marks ⟨ox, oy, w, h, List.replicate (w * h).toNat false⟩
    atx aty h1 h2 h3 h4 (by simp)
  have hsse := sight_set_ext (⟨ox, oy, w, h, List.replicate (w * h).toNat false⟩ : Sight) atx aty
  have hfin := hext.2.2.2.2 _ hmark
  have hoxf := hext.1.trans hsse.1
  have hoyf := hext.2.1.trans hsse.2.1
  have hwf := hext.2.2.1.trans hsse.2.2.1
  have hhf := hext.2.2.2.1.trans hsse.2.2.2.1
  apply sight_get_of_marked _ atx aty (by rw [hoxf]; exact h1) (by rw [hoyf]; exact h2)
    (by rw [hoxf, hwf]; exact h3) (by rw [hoyf, hhf]; exact h4)
  rw [hoxf, hoyf, hwf]
  exact hfin

/-- C3: for every level, every in-bounds observer tile and every radius ≥ 0,
the sight table produced by `compute_sight` reports the observer's own tile as
seen.  For radius ≥ 1 the very first ray marks the observer's tile before
walking outward; for radius 0 no ray marks anything, but the 1×1 window makes
all four neighbour clamps of `sight_get` fire, which reports the tile seen. -/
theorem C3_observer_tile_seen (lvl : Level) (actor : Actor) (radius : Int)
    (_hW : 1 ≤ lvl.width) (_hH : 1 ≤ lvl.height)
    (hx0 : 0 ≤ tc actor.x) (hx1 : tc actor.x < lvl.width)
    (hy0 : 0 ≤ tc actor.y) (hy1 : tc actor.y < lvl.height)
    (hr : 0 ≤ radius) :
    sight_get (compute_sight lvl actor radius) (tc actor.x) (tc actor.y) = true := by
  unfold compute_sight
  dsimp only
  rcases (by omega : radius = 0 ∨ 1 ≤ radius) with hr0 | hr1
  · subst hr0
    norm_num
    rw [circle_radius0]
    apply sight_get_1x1 <;> (dsimp only; unfold clamp; split_ifs <;> omega)
  · have hsq : radius < (radius + 1) * (radius + 1) := by nlinarith
    apply compute_marks_general lvl (tc actor.x) (tc actor.y) _ _ _ _ ?_ ?_ ?_ ?_ radius _ hr1
    · unfold clamp
      split_ifs <;> omega
    · unfold clamp
      split_ifs <;> omega
    · unfold clamp
      generalize (radius + 1) * (radius + 1) = sq at hsq ⊢
      split_ifs <;> omega
    · unfold clamp
      generalize (radius + 1) * (radius + 1) = sq at hsq ⊢
      split_ifs <;> omega

/-- Witness for C3: the all-open 1×3 corridor, observer on tile (1,0),
radius 2. -/
theorem C3_observer_tile_seen_witness :
    ((1 : Int) ≤ losLvlOpen.width ∧ (1 : Int) ≤ losLvlOpen.height ∧
     0 ≤ tc c3Actor.x ∧ tc c3Actor.x < losLvlOpen.width ∧
     0 ≤ tc c3Actor.y ∧ tc c3Actor.y < losLvlOpen.height ∧ (0 : Int) ≤ 2) ∧
    sight_get (compute_sight losLvlOpen c3Actor 2) (tc c3Actor.x) (tc c3Actor.y) = true :=
  ⟨by decide,
   C3_observer_tile_seen losLvlOpen c3Actor 2 (by decide) (by decide) (by decide)
     (by decide) (by decide) (by decide) (by decide)⟩

/-- The integer displacement applied by the collision code differs from the
real push component by at most one unit (the half-away rounding never shrinks
the push and adds less than one unit). -/
theorem push_round_err (p : ℝ) : |(push_round p : ℝ) - p| ≤ 1 := by
  unfold push_round cround csign
  rcases lt_trichotomy p 0 with hp | hp | hp
  · have hs : ((if p > 0 then (1 : ℤ) else 0) - if p < 0 then 1 else 0) = -1 := by
      rw [if_neg (by linarith), if_pos hp]
      decide
    rw [hs]
    have harg : p + 0.5 * ((-1 : ℤ) : ℝ) = p - 0.5 := by push_cast; ring
    rw [harg, if_pos (by linarith : p - 0.5 < 0)]
    have hfl : -(p - 0.5) + 1 / 2 = -p + 1 := by ring
    rw [hfl, Int.floor_add_one]
    have h1 := Int.floor_le (-p)
    have h2 := Int.lt_floor_add_one (-p)
    rw [abs_le]
    constructor <;> push_cast <;> linarith
  · subst hp
    norm_num
  · have hs : ((if p > 0 then (1 : ℤ) else 0) - if p < 0 then 1 else 0) = 1 := by
      rw [if_pos hp, if_neg (by linarith)]
      decide
    rw [hs]
    have harg : p + 0.5 * ((1 : ℤ) : ℝ) = p + 0.5 := by push_cast; ring
    rw [harg, if_neg (by linarith : ¬(p + 0.5 < 0))]
    have hfl : p + 0.5 + 1 / 2 = p + 1 := by ring
    rw [hfl, Int.floor_add_one]
    have h1 := Int.floor_le p
    have h2 := Int.lt_floor_add_one p
    rw [abs_le]
    constructor <;> push_cast <;> linarith

/-- `length` is the complex modulus of the corresponding complex number. -/
theorem length_eq_abs (x y : ℝ) : length x y = Complex.abs ⟨x, y⟩ := by
  rw [length, Complex.abs_apply, Complex.normSq_mk]

/-- Distance estimate after rounding: scaling (dx, dy) of length L to length
`2r` and perturbing each coordinate by at most 2 moves the length to within
`2√2` of `2r`. -/
theorem abs_dist_est (dx dy r L ex ey : ℝ) (hL : 0 < L) (hr2 : L < 2 * r)
    (hlen : length dx dy = L) (hex : |ex| ≤ 1) (hey : |ey| ≤ 1) :
    |length (dx * (2 * r / L) + 2 * ex) (dy * (2 * r / L) + 2 * ey) - 2 * r| ≤
      2 * Real.sqrt 2 := by
  have hL0 : L ≠ 0 := ne_of_gt hL
  have hrpos : (0 : ℝ) < 2 * r := lt_trans hL hr2
  have hvabs : Complex.abs ⟨dx * (2 * r / L), dy * (2 * r / L)⟩ = 2 * r := by
    have hv : (⟨dx * (2 * r / L), dy * (2 * r / L)⟩ : ℂ) = ((2 * r / L : ℝ) : ℂ) * ⟨dx, dy⟩ := by
      apply Complex.ext <;>
        simp [Complex.ofReal_re, Complex.ofReal_im, Complex.mul_re, Complex.mul_im] <;> ring
    rw [hv, map_mul, Complex.abs_ofReal, ← length_eq_abs, hlen,
      abs_of_pos (div_pos hrpos hL)]
    field_simp
  have htri := AbsoluteValue.abs_abv_sub_le_abv_sub Complex.abs
    (⟨dx * (2 * r / L) + 2 * ex, dy * (2 * r / L) + 2 * ey⟩ : ℂ)
    (⟨dx * (2 * r / L), dy * (2 * r / L)⟩ : ℂ)
  rw [hvabs] at htri
  have hsub : (⟨dx * (2 * r / L) + 2 * ex, dy * (2 * r / L) + 2 * ey⟩ : ℂ) -
      (⟨dx * (2 * r / L), dy * (2 * r / L)⟩ : ℂ) = ⟨2 * ex, 2 * ey⟩ := by
    apply Complex.ext <;> simp
  rw [hsub] at htri
  have hdiff : Complex.abs (⟨2 * ex, 2 * ey⟩ : ℂ) ≤ 2 * Real.sqrt 2 := by
    rw [Complex.abs_apply, Complex.normSq_mk]
    have hex2 := abs_le.mp hex
    have hey2 := abs_le.mp hey
    calc Real.sqrt (2 * ex * (2 * ex) + 2 * ey * (2 * ey)) ≤ Real.sqrt 8 :=
          Real.sqrt_le_sqrt (by nlinarith)
      _ = 2 * Real.sqrt 2 := by
          rw [show (8 : ℝ) = 2 ^ 2 * 2 by norm_num, Real.sqrt_mul (by positivity) 2,
            Real.sqrt_sq (by norm_num : (0 : ℝ) ≤ 2)]
  rw [length_eq_abs]
  exact le_trans htri hdiff

/-- C7 (amended): two overlapping actors of equal radius with DISTINCT centres
are displaced symmetrically — each moves by the same rounded half-penetration
vector `push_round (half_push a b)` in opposite directions — and the
post-resolution centre distance differs from `2r` by at most `2√2` sub-tile
units (each rounded component is within one unit of the exact
half-penetration). -/
theorem C7_amended (a b : Actor) (hr : a.radius = b.radius)
    (hpos : 0 < length ((b.x : ℝ) - (a.x : ℝ)) ((b.y : ℝ) - (a.y : ℝ)))
    (hlt : length ((b.x : ℝ) - (a.x : ℝ)) ((b.y : ℝ) - (a.y : ℝ)) < 2 * (a.radius : ℝ)) :
    (collide_actor_actor a b).1.1.x = a.x - push_round (half_push a b).1 ∧
    (collide_actor_actor a b).1.1.y = a.y - push_round (half_push a b).2 ∧
    (collide_actor_actor a b).1.2.x = b.x + push_round (half_push a b).1 ∧
    (collide_actor_actor a b).1.2.y = b.y + push_round (half_push a b).2 ∧
    |length (((collide_actor_actor a b).1.2.x : ℝ) - ((collide_actor_actor a b).1.1.x : ℝ))
        (((collide_actor_actor a b).1.2.y : ℝ) - ((collide_actor_actor a b).1.1.y : ℝ)) -
      2 * (a.radius : ℝ)| ≤ 2 * Real.sqrt 2 := by
  have hradd : (a.radius : ℝ) + (b.radius : ℝ) = 2 * (a.radius : ℝ) := by
    rw [← hr]; ring
  have hov : (a.radius : ℝ) + (b.radius : ℝ) -
      length ((b.x : ℝ) - (a.x : ℝ)) ((b.y : ℝ) - (a.y : ℝ)) > 0 := by
    rw [hradd]; linarith
  have hcc : collide_actor_actor a b =
      (({ a with x := a.x - push_round (half_push a b).1,
                 y := a.y - push_round (half_push a b).2 },
        { b with x := b.x + push_round (half_push a b).1,
                 y := b.y + push_round (half_push a b).2 }), true) := by
    unfold collide_actor_actor
    dsimp only
    rw [if_pos hov]
  rw [hcc]
  refine ⟨rfl, rfl, rfl, rfl, ?_⟩
  dsimp only
  set L := length ((b.x : ℝ) - (a.x : ℝ)) ((b.y : ℝ) - (a.y : ℝ)) with hL
  set r := (a.radius : ℝ) with hrr
  have hL0 : L ≠ 0 := ne_of_gt hpos
  have hp1 : (half_push a b).1 = 0.5 * (2 * r - L) * ((b.x : ℝ) - (a.x : ℝ)) / L := by
    unfold half_push
    dsimp only
    rw [← hL, hradd]
  have hp2 : (half_push a b).2 = 0.5 * (2 * r - L) * ((b.y : ℝ) - (a.y : ℝ)) / L := by
    unfold half_push
    dsimp only
    rw [← hL, hradd]
  have he1 := push_round_err (half_push a b).1
  have he2 := push_round_err (half_push a b).2
  have hc1 : ((b.x + push_round (half_push a b).1 : ℤ) : ℝ) -
      ((a.x - push_round (half_push a b).1 : ℤ) : ℝ) =
      ((b.x : ℝ) - (a.x : ℝ)) * (2 * r / L) +
        2 * ((push_round (half_push a b).1 : ℝ) - (half_push a b).1) := by
    rw [hp1]
    push_cast
    field_simp
    ring
  have hc2 : ((b.y + push_round (half_push a b).2 : ℤ) : ℝ) -
      ((a.y - push_round (half_push a b).2 : ℤ) : ℝ) =
      ((b.y : ℝ) - (a.y : ℝ)) * (2 * r / L) +
        2 * ((push_round (half_push a b).2 : ℝ) - (half_push a b).2) := by
    rw [hp2]
    push_cast
    field_simp
    ring
  rw [hc1, hc2]
  exact abs_dist_est ((b.x : ℝ) - (a.x : ℝ)) ((b.y : ℝ) - (a.y : ℝ)) r L _ _ hpos hlt
    hL.symm he1 he2

/-- The square root of 2 is at most 2. -/
theorem sqrt_two_le_two : Real.sqrt 2 ≤ 2 := by
  have h := Real.sqrt_le_sqrt (show (2 : ℝ) ≤ 4 by norm_num)
  rwa [show (4 : ℝ) = 2 ^ 2 by norm_num, Real.sqrt_sq (by norm_num : (0 : ℝ) ≤ 2)] at h

/-- C7 counterexample: the claim quantifies over all pairs with centre
distance strictly below `2r`, which includes two actors with COINCIDENT
centres.  There the push is `0.5 * overlap * 0 / 0`; the model's division by
zero yields a zero push (the C code computes `0.0/0.0`, a NaN, and the
converted displacement is unspecified), so the pair is left in place: the
post-resolution centre distance is 0, not `2r = 300` within rounding. -/
theorem C7_counterexample :
    c7a.radius = c7b.radius ∧
    length ((c7b.x : ℝ) - (c7a.x : ℝ)) ((c7b.y : ℝ) - (c7a.y : ℝ)) <
      (c7a.radius : ℝ) + (c7b.radius : ℝ) ∧
    length (((collide_actor_actor c7a c7b).1.2.x : ℝ) - ((collide_actor_actor c7a c7b).1.1.x : ℝ))
      (((collide_actor_actor c7a c7b).1.2.y : ℝ) - ((collide_actor_actor c7a c7b).1.1.y : ℝ)) = 0 ∧
    ¬(|(0 : ℝ) - 2 * (c7a.radius : ℝ)| ≤ 2 * Real.sqrt 2) := by
  have hx : (c7b.x : ℝ) - (c7a.x : ℝ) = 0 := by norm_num [c7a, c7b, init_actor]
  have hy : (c7b.y : ℝ) - (c7a.y : ℝ) = 0 := by norm_num [c7a, c7b, init_actor]
  have hlen0 : length ((c7b.x : ℝ) - (c7a.x : ℝ)) ((c7b.y : ℝ) - (c7a.y : ℝ)) = 0 := by
    rw [hx, hy, length]
    norm_num
  have hhp1 : (half_push c7a c7b).1 = 0 := by
    unfold half_push
    dsimp only
    rw [hx]
    ring
  have hhp2 : (half_push c7a c7b).2 = 0 := by
    unfold half_push
    dsimp only
    rw [hy]
    ring
  have hpr0 : push_round 0 = 0 := by
    unfold push_round csign cround
    norm_num
  have hcc : collide_actor_actor c7a c7b = ((c7a, c7b), true) := by
    unfold collide_actor_actor
    dsimp only
    rw [if_pos (by rw [hlen0]; norm_num [c7a, c7b, init_actor])]
    rw [hhp1, hhp2, hpr0]
    norm_num
  refine ⟨rfl, by rw [hlen0]; norm_num [c7a, c7b, init_actor], by rw [hcc]; exact hlen0, ?_⟩
  intro hcon
  have hs2 := sqrt_two_le_two
  have hr150 : (c7a.radius : ℝ) = 150 := by norm_num [c7a, init_actor]
  rw [hr150] at hcon
  rw [show |(0 : ℝ) - 2 * 150| = 300 by norm_num] at hcon
  linarith

/-- C7's witness distance: the actors `c7c`, `c7d` are 100 units apart. -/
theorem c7_witness_len :
    length ((c7d.x : ℝ) - (c7c.x : ℝ)) ((c7d.y : ℝ) - (c7c.y : ℝ)) = 100 := by
  have hx : (c7d.x : ℝ) - (c7c.x : ℝ) = 100 := by norm_num [c7c, c7d, init_actor]
  have hy : (c7d.y : ℝ) - (c7c.y : ℝ) = 0 := by norm_num [c7c, c7d, init_actor]
  rw [hx, hy, length]
  rw [show (100 : ℝ) * 100 + 0 * 0 = 100 ^ 2 by norm_num]
  exact Real.sqrt_sq (by norm_num)

/-- Witness for C7 (amended): actors of radius 150 with centres (0,0) and
(100,0). -/
theorem C7_amended_witness :
    (c7c.radius = c7d.radius ∧
     0 < length ((c7d.x : ℝ) - (c7c.x : ℝ)) ((c7d.y : ℝ) - (c7c.y : ℝ)) ∧
     length ((c7d.x : ℝ) - (c7c.x : ℝ)) ((c7d.y : ℝ) - (c7c.y : ℝ)) < 2 * (c7c.radius : ℝ)) ∧
    ((collide_actor_actor c7c c7d).1.1.x = c7c.x - push_round (half_push c7c c7d).1 ∧
     (collide_actor_actor c7c c7d).1.1.y = c7c.y - push_round (half_push c7c c7d).2 ∧
     (collide_actor_actor c7c c7d).1.2.x = c7d.x + push_round (half_push c7c c7d).1 ∧
     (collide_actor_actor c7c c7d).1.2.y = c7d.y + push_round (half_push c7c c7d).2 ∧
     |length (((collide_actor_actor c7c c7d).1.2.x : ℝ) - ((collide_actor_actor c7c c7d).1.1.x : ℝ))
         (((collide_actor_actor c7c c7d).1.2.y : ℝ) - ((collide_actor_actor c7c c7d).1.1.y : ℝ)) -
       2 * (c7c.radius : ℝ)| ≤ 2 * Real.sqrt 2) :=
  ⟨⟨rfl, by rw [c7_witness_len]; norm_num,
    by rw [c7_witness_len]; norm_num [c7c, init_actor]⟩,
   C7_amended c7c c7d rfl
     (by rw [c7_witness_len]; norm_num)
     (by rw [c7_witness_len]; norm_num [c7c, init_actor])⟩

/-- The relaxation loop performs at most as many passes as it has retries. -/
theorem relaxLoop_count_le (level : Level) :
    ∀ (n : ℕ) (player : Actor) (actors : List Actor),
      (relaxLoop level n player actors).2 ≤ n := by
  intro n
  induction n with
  | zero => intro p as; simp [relaxLoop]
  | succ n ih =>
      intro p as
      simp only [relaxLoop]
      split
      · exact Nat.succ_le_succ (ih _ _)
      · omega

/-- With retries left, a pass that reports no movement ends the loop at once
with that pass's state. -/
theorem relaxLoop_succ_stop (level : Level) (n : ℕ) (player : Actor) (actors : List Actor)
    (h : (collisionPass level player actors).2 = false) :
    relaxLoop level (n + 1) player actors = ((collisionPass level player actors).1, 1) := by
  simp only [relaxLoop]
  rw [h]
  simp

/-- C8: the collision relaxation loop of `game` always terminates within its
retry bound: starting with 10 retries it performs at most 10 full passes;
with the bound exhausted it returns the current (possibly still overlapping)
state; and as soon as a pass reports no movement it stops with that pass's
state. -/
theorem C8_relaxation_bounded (level : Level) (player : Actor) (actors : List Actor) :
    (relaxLoop level 10 player actors).2 ≤ 10 ∧
    relaxLoop level 0 player actors = ((player, actors), 0) ∧
    ((collisionPass level player actors).2 = false →
      relaxLoop level 10 player actors = ((collisionPass level player actors).1, 1)) :=
  ⟨relaxLoop_count_le level 10 player actors, rfl,
   fun h => relaxLoop_succ_stop level 9 player actors h⟩

/-- The witness player overlaps only the single open tile, so the level pass
moves nothing. -/
theorem c8_level_pass : collide_level_actor c8Lvl c8Player = (c8Player, false) := by
  unfold collide_level_actor
  dsimp only
  rw [show tc (c8Player.x - c8Player.radius) = 0 from rfl,
      show tc (c8Player.x + c8Player.radius) = 0 from rfl,
      show tc (c8Player.y - c8Player.radius) = 0 from rfl,
      show tc (c8Player.y + c8Player.radius) = 0 from rfl,
      show rangeInt 0 0 = [0] from rfl]
  simp only [List.foldl_cons, List.foldl_nil]
  unfold tile_collide
  dsimp only
  rw [if_neg (by decide), if_neg (by decide), if_neg (by decide), if_neg (by decide),
    if_pos (by decide)]

/-- A full collision pass on the witness configuration reports no movement. -/
theorem c8_pass : collisionPass c8Lvl c8Player [] = ((c8Player, []), false) := by
  unfold collisionPass
  dsimp only
  rw [c8_level_pass,
      show collideActorsLevel c8Lvl [] = ([], false) from rfl]
  dsimp only
  rw [show collidePlayerActors c8Player [] = ((c8Player, []), false) from rfl]
  dsimp only
  rw [show collidePairs [] = ([], false) from rfl]
  rfl

/-- Witness for C8: on the 1×1 open level with a non-overlapping player and no
other actors, the loop stops after exactly one (non-moving) pass, within the
bound of 10. -/
theorem C8_relaxation_bounded_witness :
    (relaxLoop c8Lvl 10 c8Player []).2 ≤ 10 ∧
    relaxLoop c8Lvl 10 c8Player [] = ((c8Player, []), 1) := by
  have h := C8_relaxation_bounded c8Lvl c8Player []
  have hpassf : (collisionPass c8Lvl c8Player []).2 = false := by rw [c8_pass]
  refine ⟨h.1, ?_⟩
  rw [h.2.2 hpassf, c8_pass]
